import Mathlib

/-!
Verification of the mfl_api facility-registry core.

This file gives a shallow embedding of the behaviour described in the
repository's specification, translated from `common/models.py` where that
source is available, and modelled from the specification's own words where
the implementing module (the facilities models and the visibility filter
backends) is not part of the provided sources.

Conventions:
- primary keys, user ids and region ids are `Nat`;
- timestamps are `Nat` (absolute instants; the timezone localisation in
  `get_utc_localized_datetime` is the identity on absolute instants);
- a database table is a `List` of rows, a fallible write returns
  `Except String` where the Python raises `ValidationError`.
-/

namespace MflApi

/-! ## Audit base (`common/models.py`, `AbstractBase`)

`AbstractBase` gives every model `id` (pk), `created`, `updated`,
`created_by`, `updated_by`, `deleted`, `active`.  The default manager
(`CustomDefaultManager.get_queryset`) filters `deleted=False`.  `save()`
runs `full_clean`, then `preserve_created_and_created_by`, then
`validate_updated_date_greater_than_created`, then the actual row write.
The `payload` field stands for the concrete subclass's own columns, which
the row write persists untouched. -/

structure DBRecord where
  pk : Nat
  created : Nat
  updated : Nat
  created_by : Nat
  updated_by : Nat
  deleted : Bool
  active : Bool
  payload : String
deriving Repr, DecidableEq

/-- A table of audited rows. -/
abbrev Store := List DBRecord

/-- `CustomDefaultManager.get_queryset().get(pk=pk)`: the default manager
filters out soft-deleted rows before the pk lookup. -/
def objectsGet (store : Store) (pk : Nat) : Option DBRecord :=
  store.find? (fun r => r.deleted = false && r.pk = pk)

/-- `AbstractBase.preserve_created_and_created_by`: restore `created` and
`created_by` from the row the default manager finds for this pk; when the
lookup raises `DoesNotExist` the instance is treated as a new record. -/
def preserveCreatedAndCreatedBy (store : Store) (self : DBRecord) : DBRecord :=
  match objectsGet store self.pk with
  | some original => { self with created := original.created, created_by := original.created_by }
  | none => self

/-- The message raised by `validate_updated_date_greater_than_created`. -/
def updatedDateError : String :=
  "The updated date cannot be less than the created date"

/-- `AbstractBase.validate_updated_date_greater_than_created`: raises when
`self.updated < self.created`. -/
def validateUpdatedDateGreaterThanCreated (self : DBRecord) : Except String Unit :=
  if self.updated < self.created then Except.error updatedDateError else Except.ok ()

/-- The underlying `models.Model.save`: update the row with this pk if one
exists (soft-deleted or not), otherwise insert. -/
def writeRow (store : Store) (self : DBRecord) : Store :=
  if store.any (fun r => r.pk = self.pk) then
    store.map (fun r => if r.pk = self.pk then self else r)
  else
    store ++ [self]

/-- `AbstractBase.save`: preserve `created`/`created_by`, validate the
date ordering, then write the row.  (`full_clean` checks field-level
constraints that the audit columns modelled here always satisfy.) -/
def abstractSave (store : Store) (self : DBRecord) : Except String Store :=
  let s := preserveCreatedAndCreatedBy store self
  match validateUpdatedDateGreaterThanCreated s with
  | Except.error e => Except.error e
  | Except.ok _ => Except.ok (writeRow store s)

/-! ## `UserCounties` (`common/models.py`)

`UserCounties` rows carry a `user`, a `county` and an `is_active` flag on
top of the audit columns.  `validate_only_one_county_active` counts the
rows the default manager returns for `user=self.user, is_active=True` and
raises when the count is positive; `save` runs that check before the
inherited `AbstractBase.save`. -/

structure UserCountyRow where
  pk : Nat
  user : Nat
  county : Nat
  is_active : Bool
  created : Nat
  updated : Nat
  created_by : Nat
  updated_by : Nat
  deleted : Bool
  active : Bool
deriving Repr, DecidableEq

abbrev UCStore := List UserCountyRow

/-- The message raised by `validate_only_one_county_active`. -/
def oneCountyError : String :=
  "A user can only be active in one county at a time"

/-- The queryset `self.__class__.objects.filter(user=..., is_active=True)`:
the default manager filters `deleted=False`, then the query filters by user
and `is_active=True`. -/
def activeCountyRowsFor (store : UCStore) (u : Nat) : UCStore :=
  store.filter (fun r => r.deleted = false && r.user = u && r.is_active = true)

/-- `UserCounties.validate_only_one_county_active`: a positive count of the
user's active rows raises.  The query never excludes the row being saved
and never looks at `self.is_active`. -/
def validateOnlyOneCountyActive (store : UCStore) (self : UserCountyRow) : Except String Unit :=
  if (activeCountyRowsFor store self.user).length > 0 then
    Except.error oneCountyError
  else
    Except.ok ()

/-- `objects.get(pk=...)` on the `UserCounties` table. -/
def ucObjectsGet (store : UCStore) (pk : Nat) : Option UserCountyRow :=
  store.find? (fun r => r.deleted = false && r.pk = pk)

/-- `preserve_created_and_created_by` specialised to `UserCounties` rows. -/
def ucPreserve (store : UCStore) (self : UserCountyRow) : UserCountyRow :=
  match ucObjectsGet store self.pk with
  | some original => { self with created := original.created, created_by := original.created_by }
  | none => self

/-- Row write on the `UserCounties` table. -/
def ucWriteRow (store : UCStore) (self : UserCountyRow) : UCStore :=
  if store.any (fun r => r.pk = self.pk) then
    store.map (fun r => if r.pk = self.pk then self else r)
  else
    store ++ [self]

/-- `UserCounties.save`: `validate_only_one_county_active` first, then the
inherited `AbstractBase.save` pipeline. -/
def userCountiesSave (store : UCStore) (self : UserCountyRow) : Except String UCStore :=
  match validateOnlyOneCountyActive store self with
  | Except.error e => Except.error e
  | Except.ok _ =>
    let s := ucPreserve store self
    if s.updated < s.created then Except.error updatedDateError
    else Except.ok (ucWriteRow store s)

/-- At most one active (non-deleted) county assignment per user. -/
def atMostOneActivePerUser (store : UCStore) : Prop :=
  ∀ u : Nat, (activeCountyRowsFor store u).length ≤ 1

/-! ## Sequence codes (`common/models.py`, `RegionAbstractBase.save`)

`RegionAbstractBase.save` assigns `self.code = self.generate_next_code_sequence()`
under the guard `if not self.code`, before handing over to the inherited save.
The generator itself lives in `common/utilities/sequence_helper.py`, which is
not among the provided sources, so it is modelled from the specification. -/

/-- Python truthiness of an optional numeric `code`: `None` is falsy, and so
is the number `0`; any other number is truthy. -/
def pyFalsyCode : Option Nat → Bool
  | none => true
  | some 0 => true
  | some (_ + 1) => false

/-- Modelled from the spec: `SequenceGenerator.next` (from
`common/utilities/sequence_helper.py`, missing from the provided sources) is
a database-level monotonic counter that returns the next integer strictly
greater than any previously issued one, starting from a configured floor.
The state is the last issued value (initially the floor); the result is the
new state paired with the issued code. -/
def sequenceNext (ctr : Nat) : Nat × Nat := (ctr + 1, ctr + 1)

/-- `RegionAbstractBase.save`, code-assignment part:
`if not self.code: self.code = self.generate_next_code_sequence()`.
Returns the new counter state paired with the code the record keeps. -/
def regionSaveCode (ctr : Nat) (code : Option Nat) : Nat × Nat :=
  if pyFalsyCode code then sequenceNext ctr else (ctr, code.getD 0)

/-- Create a run of records with the given requested codes, threading the
sequence counter.  Each output entry is the persisted code paired with a
flag telling whether the sequence generated it. -/
def runCreates (ctr : Nat) : List (Option Nat) → List (Nat × Bool) × Nat
  | [] => ([], ctr)
  | req :: rest =>
    let next := regionSaveCode ctr req
    let tail := runCreates next.1 rest
    ((next.2, pyFalsyCode req) :: tail.1, tail.2)

/-! ## Facility update workflow

The implementing module (`facilities/models.py` and the `FacilityUpdates`
serializer) is not among the provided sources — only its tests are — so the
whole workflow is modelled from the specification, section 4.2. -/

/-- Modelled from the spec: one captured field change of a `FacilityUpdate` —
"field name, human-readable label, current value snapshot, proposed value". -/
structure FieldChange where
  field_name : String
  human_field_name : String
  current_value : String
  proposed_value : String
deriving Repr, DecidableEq

/-- Modelled from the spec: the slice of a `Facility` row the workflow
touches — its editable named fields (`attrs`), the `has_edits` flag and the
`latest_update` reference. -/
structure Facility where
  fid : Nat
  attrs : List (String × String)
  has_edits : Bool
  latest_update : Option Nat
deriving Repr, DecidableEq

/-- Modelled from the spec: a `FacilityUpdate` record — facility reference,
stored list of proposed field changes, `approved` and `cancelled` flags.
A record with both flags false is pending; either flag set is terminal. -/
structure FacilityUpdate where
  uid : Nat
  facility_id : Nat
  changes : List FieldChange
  approved : Bool
  cancelled : Bool
deriving Repr, DecidableEq

/-- The pending (initial, non-terminal) state of the workflow. -/
def FacilityUpdate.pending (u : FacilityUpdate) : Prop :=
  u.approved = false ∧ u.cancelled = false

instance (u : FacilityUpdate) : Decidable u.pending := by
  unfold FacilityUpdate.pending; infer_instance

/-- `setattr(facility, field_name, value)` over the named-field map. -/
def setAttr (attrs : List (String × String)) (k v : String) : List (String × String) :=
  if attrs.any (fun p => p.1 = k) then
    attrs.map (fun p => if p.1 = k then (k, v) else p)
  else
    attrs ++ [(k, v)]

/-- Read a named field of the facility. -/
def getAttr (attrs : List (String × String)) (k : String) : Option String :=
  (attrs.find? (fun p => p.1 = k)).map (fun p => p.2)

/-- Modelled from the spec: approval writes each captured change's proposed
value onto the named field of the facility, in order. -/
def applyChanges (attrs : List (String × String)) (cs : List FieldChange) :
    List (String × String) :=
  cs.foldl (fun a c => setAttr a c.field_name c.proposed_value) attrs

/-- Modelled from the spec: clear the facility's `has_edits` and
`latest_update` "only if they still point at this update". -/
def clearEdits (f : Facility) (uid : Nat) : Facility :=
  if f.latest_update = some uid then
    { f with has_edits := false, latest_update := none }
  else
    f

/-- The pair of rows an approve/cancel decision reads and writes. -/
structure WorkflowState where
  facility : Facility
  update : FacilityUpdate
deriving Repr, DecidableEq

/-- Error for a transition attempted on a terminal record. -/
def terminalTransitionError : String :=
  "An approved or cancelled update cannot transition again"

/-- Error for an approval whose field writes violate a model constraint. -/
def invalidFieldWriteError : String :=
  "A field write violated a model constraint"

/-- Modelled from the spec: submit creates a pending `FacilityUpdate` and
sets the facility's `has_edits = true` and `latest_update` to the new
record's id. -/
def submitUpdate (f : Facility) (uid : Nat) (cs : List FieldChange) : WorkflowState :=
  ⟨{ f with has_edits := true, latest_update := some uid },
   ⟨uid, f.fid, cs, false, false⟩⟩

/-- Modelled from the spec: approve a pending update — reject a terminal
record; write every proposed value onto the facility; fail the whole
approval (leaving everything as it was) when the written facility violates
the model constraint `valid`; otherwise persist the facility, set
`approved = true` and clear `has_edits`/`latest_update` if they still point
at this update. -/
def approveUpdate (valid : List (String × String) → Bool) (st : WorkflowState) :
    Except String WorkflowState :=
  if st.update.approved || st.update.cancelled then
    Except.error terminalTransitionError
  else
    let attrs := applyChanges st.facility.attrs st.update.changes
    if valid attrs then
      Except.ok ⟨clearEdits { st.facility with attrs := attrs } st.update.uid,
                 { st.update with approved := true }⟩
    else
      Except.error invalidFieldWriteError

/-- Modelled from the spec: cancel a pending update — reject a terminal
record; discard the proposed changes (facility fields untouched), set
`cancelled = true`, clear `has_edits`/`latest_update` as for approval. -/
def cancelUpdate (st : WorkflowState) : Except String WorkflowState :=
  if st.update.approved || st.update.cancelled then
    Except.error terminalTransitionError
  else
    Except.ok ⟨clearEdits st.facility st.update.uid,
               { st.update with cancelled := true }⟩

/-- Run an approval request: on failure the state is left untouched and the
error is reported to the caller. -/
def tryApprove (valid : List (String × String) → Bool) (st : WorkflowState) :
    WorkflowState × Option String :=
  match approveUpdate valid st with
  | Except.ok st' => (st', none)
  | Except.error e => (st, some e)

/-- Run a cancellation request: on failure the state is left untouched and
the error is reported to the caller. -/
def tryCancel (st : WorkflowState) : WorkflowState × Option String :=
  match cancelUpdate st with
  | Except.ok st' => (st', none)
  | Except.error e => (st, some e)

/-! ## Scoped visibility filter

The filter backends (`CountyAndNationalFilterBackend` and the constituency
filter) are not among the provided sources — only their tests are — so the
filter is modelled from the specification, section 4.3. -/

/-- A ward row: the region hierarchy links a ward to its constituency. -/
structure WardRow where
  wid : Nat
  constituency : Nat
deriving Repr, DecidableEq

/-- A constituency row: linked to its county. -/
structure ConstituencyRow where
  cid : Nat
  county : Nat
deriving Repr, DecidableEq

/-- A facility row as the filter sees it: linked to its ward. -/
structure FacilityGeo where
  fid : Nat
  ward : Nat
deriving Repr, DecidableEq

/-- The region hierarchy the filter consults. -/
structure RegionDB where
  wards : List WardRow
  constituencies : List ConstituencyRow
deriving Repr, DecidableEq

/-- The constituency of a facility's ward. -/
def wardConstituency (db : RegionDB) (wid : Nat) : Option Nat :=
  (db.wards.find? (fun w => w.wid = wid)).map (fun w => w.constituency)

/-- The county a ward exposes transitively through its constituency. -/
def wardCounty (db : RegionDB) (wid : Nat) : Option Nat :=
  (wardConstituency db wid).bind
    (fun c => (db.constituencies.find? (fun k => k.cid = c)).map (fun k => k.county))

/-- Modelled from the spec: the requesting user's scope material — the
national flag and the user's active county / constituency assignment. -/
structure ScopedUser where
  is_national : Bool
  active_county : Option Nat
  active_constituency : Option Nat
deriving Repr, DecidableEq

/-- The scope alternatives of the specification: national, single county,
single sub-county (constituency), or no scope at all. -/
inductive Scope where
  | national : Scope
  | county : Nat → Scope
  | constituency : Nat → Scope
  | noScope : Scope
deriving Repr, DecidableEq

/-- Modelled from the spec: derive the user's scope — national wins; else
the active county assignment; else the active constituency assignment; else
no scope. -/
def userScope (u : ScopedUser) : Scope :=
  if u.is_national then Scope.national
  else
    match u.active_county with
    | some c => Scope.county c
    | none =>
      match u.active_constituency with
      | some s => Scope.constituency s
      | none => Scope.noScope

/-- Modelled from the spec: restrict a facility query to the scope —
national passes everything through, county keeps facilities whose ward's
county matches, constituency keeps facilities whose ward's constituency
matches, and no scope fails closed to the empty result. -/
def scopeFilter (db : RegionDB) (sc : Scope) (facs : List FacilityGeo) :
    List FacilityGeo :=
  match sc with
  | Scope.national => facs
  | Scope.county c => facs.filter (fun f => wardCounty db f.ward = some c)
  | Scope.constituency s => facs.filter (fun f => wardConstituency db f.ward = some s)
  | Scope.noScope => []

/-- The facilities the requesting user sees. -/
def visibleTo (db : RegionDB) (u : ScopedUser) (facs : List FacilityGeo) :
    List FacilityGeo :=
  scopeFilter db (userScope u) facs

/-! ## Helper lemmas -/

theorem getAttr_setAttr_self (attrs : List (String × String)) (k v : String) :
    getAttr (setAttr attrs k v) k = some v := by
  induction attrs with
  | nil => simp [setAttr, getAttr]
  | cons p t ih =>
    by_cases hp : p.1 = k
    · simp [setAttr, getAttr, hp]
    · have hany : ((p :: t).any (fun q => q.1 = k)) = t.any (fun q => q.1 = k) := by
        simp [List.any_cons, hp]
      by_cases ht : t.any (fun q => q.1 = k) = true
      · have ihx := ih
        simp only [setAttr, ht, if_pos] at ihx
        simp only [setAttr, hany, ht, if_pos]
        simpa [getAttr, List.find?_cons, hp] using ihx
      · have ihx := ih
        simp only [setAttr, ht] at ihx
        simp only [setAttr, hany, ht]
        simp only [if_neg, Bool.false_eq_true, not_false_iff] at ihx ⊢
        simpa [getAttr, List.find?_cons, hp] using ihx

theorem applyChanges_single (attrs : List (String × String)) (c : FieldChange) :
    applyChanges attrs [c] = setAttr attrs c.field_name c.proposed_value := by
  simp [applyChanges]

/-! ## Theorems about the facility update workflow -/

/-- Claim C1: for every facility with a pending `FacilityUpdate` whose
stored change list is `[{field: "name", proposed: "X"}]`, approving that
update (with the write passing the model constraint) results in the
facility's name equal to `"X"`, `has_edits = false`, `latest_update = none`
and the update's `approved` flag true. -/
theorem approve_pending_name_change_applies
    (valid : List (String × String) → Bool) (st : WorkflowState)
    (label cur x : String)
    (hpend : st.update.pending)
    (hlatest : st.facility.latest_update = some st.update.uid)
    (hchanges : st.update.changes = [⟨"name", label, cur, x⟩])
    (hvalid : valid (applyChanges st.facility.attrs st.update.changes) = true) :
    (tryApprove valid st).2 = none ∧
    getAttr (tryApprove valid st).1.facility.attrs "name" = some x ∧
    (tryApprove valid st).1.facility.has_edits = false ∧
    (tryApprove valid st).1.facility.latest_update = none ∧
    (tryApprove valid st).1.update.approved = true := by
  obtain ⟨h1, h2⟩ := hpend
  have hx : applyChanges st.facility.attrs st.update.changes =
      setAttr st.facility.attrs "name" x := by
    rw [hchanges, applyChanges_single]
  rw [hx] at hvalid
  simp [tryApprove, approveUpdate, h1, h2, hvalid, clearEdits, hlatest, hx,
    getAttr_setAttr_self]

/-- Witness for `approve_pending_name_change_applies` at a concrete pending
update proposing the name `"X"`. -/
theorem approve_pending_name_change_applies_witness :
    (tryApprove (fun _ => true)
      ⟨⟨7, [("name", "old")], true, some 3⟩,
       ⟨3, 7, [⟨"name", "name", "old", "X"⟩], false, false⟩⟩).2 = none ∧
    getAttr (tryApprove (fun _ => true)
      ⟨⟨7, [("name", "old")], true, some 3⟩,
       ⟨3, 7, [⟨"name", "name", "old", "X"⟩], false, false⟩⟩).1.facility.attrs "name" =
      some "X" ∧
    (tryApprove (fun _ => true)
      ⟨⟨7, [("name", "old")], true, some 3⟩,
       ⟨3, 7, [⟨"name", "name", "old", "X"⟩], false, false⟩⟩).1.facility.has_edits = false ∧
    (tryApprove (fun _ => true)
      ⟨⟨7, [("name", "old")], true, some 3⟩,
       ⟨3, 7, [⟨"name", "name", "old", "X"⟩], false, false⟩⟩).1.facility.latest_update =
      none ∧
    (tryApprove (fun _ => true)
      ⟨⟨7, [("name", "old")], true, some 3⟩,
       ⟨3, 7, [⟨"name", "name", "old", "X"⟩], false, false⟩⟩).1.update.approved = true :=
  approve_pending_name_change_applies (fun _ => true)
    ⟨⟨7, [("name", "old")], true, some 3⟩,
     ⟨3, 7, [⟨"name", "name", "old", "X"⟩], false, false⟩⟩
    "name" "old" "X" (by constructor <;> rfl) rfl rfl rfl

/-- Claim C2: if any captured field write of a pending update is invalid
(the written facility violates the model constraint), the whole approval
fails: the state is left exactly as it was — the facility keeps every prior
field value, `has_edits` and `latest_update` are unchanged and the update
stays pending — and the caller gets the validation error. -/
theorem approve_invalid_write_rejected
    (valid : List (String × String) → Bool) (st : WorkflowState)
    (hpend : st.update.pending)
    (hinvalid : valid (applyChanges st.facility.attrs st.update.changes) = false) :
    (tryApprove valid st).1 = st ∧
    (tryApprove valid st).2 = some invalidFieldWriteError ∧
    (tryApprove valid st).1.update.pending := by
  obtain ⟨h1, h2⟩ := hpend
  refine ⟨?_, ?_, ?_⟩ <;>
    simp [tryApprove, approveUpdate, h1, h2, hinvalid, FacilityUpdate.pending]

/-- Witness for `approve_invalid_write_rejected` at a concrete pending
update whose proposed write fails the constraint. -/
theorem approve_invalid_write_rejected_witness :
    (tryApprove (fun _ => false)
      ⟨⟨7, [("name", "old")], true, some 3⟩,
       ⟨3, 7, [⟨"name", "name", "old", "X"⟩], false, false⟩⟩).1 =
      ⟨⟨7, [("name", "old")], true, some 3⟩,
       ⟨3, 7, [⟨"name", "name", "old", "X"⟩], false, false⟩⟩ ∧
    (tryApprove (fun _ => false)
      ⟨⟨7, [("name", "old")], true, some 3⟩,
       ⟨3, 7, [⟨"name", "name", "old", "X"⟩], false, false⟩⟩).2 =
      some invalidFieldWriteError ∧
    (tryApprove (fun _ => false)
      ⟨⟨7, [("name", "old")], true, some 3⟩,
       ⟨3, 7, [⟨"name", "name", "old", "X"⟩], false, false⟩⟩).1.update.pending :=
  approve_invalid_write_rejected (fun _ => false)
    ⟨⟨7, [("name", "old")], true, some 3⟩,
     ⟨3, 7, [⟨"name", "name", "old", "X"⟩], false, false⟩⟩
    (by constructor <;> rfl) rfl

/-- Claim C3: cancelling a pending update leaves every facility field
unchanged, clears the facility's `has_edits` flag and `latest_update`
reference, sets the update's `cancelled` flag and leaves `approved` false. -/
theorem cancel_pending_update_discards
    (st : WorkflowState)
    (hpend : st.update.pending)
    (hlatest : st.facility.latest_update = some st.update.uid) :
    (tryCancel st).2 = none ∧
    (tryCancel st).1.facility.attrs = st.facility.attrs ∧
    (tryCancel st).1.facility.has_edits = false ∧
    (tryCancel st).1.facility.latest_update = none ∧
    (tryCancel st).1.update.cancelled = true ∧
    (tryCancel st).1.update.approved = false := by
  obtain ⟨h1, h2⟩ := hpend
  simp [tryCancel, cancelUpdate, h1, h2, clearEdits, hlatest]

/-- Witness for `cancel_pending_update_discards` at a concrete pending
update. -/
theorem cancel_pending_update_discards_witness :
    (tryCancel
      ⟨⟨7, [("name", "old")], true, some 3⟩,
       ⟨3, 7, [⟨"name", "name", "old", "X"⟩], false, false⟩⟩).2 = none ∧
    (tryCancel
      ⟨⟨7, [("name", "old")], true, some 3⟩,
       ⟨3, 7, [⟨"name", "name", "old", "X"⟩], false, false⟩⟩).1.facility.attrs =
      [("name", "old")] ∧
    (tryCancel
      ⟨⟨7, [("name", "old")], true, some 3⟩,
       ⟨3, 7, [⟨"name", "name", "old", "X"⟩], false, false⟩⟩).1.facility.has_edits =
      false ∧
    (tryCancel
      ⟨⟨7, [("name", "old")], true, some 3⟩,
       ⟨3, 7, [⟨"name", "name", "old", "X"⟩], false, false⟩⟩).1.facility.latest_update =
      none ∧
    (tryCancel
      ⟨⟨7, [("name", "old")], true, some 3⟩,
       ⟨3, 7, [⟨"name", "name", "old", "X"⟩], false, false⟩⟩).1.update.cancelled = true ∧
    (tryCancel
      ⟨⟨7, [("name", "old")], true, some 3⟩,
       ⟨3, 7, [⟨"name", "name", "old", "X"⟩], false, false⟩⟩).1.update.approved = false :=
  cancel_pending_update_discards
    ⟨⟨7, [("name", "old")], true, some 3⟩,
     ⟨3, 7, [⟨"name", "name", "old", "X"⟩], false, false⟩⟩
    (by constructor <;> rfl) rfl

/-- Claim C4: an update already in a terminal state (approved or cancelled)
rejects any further approve or cancel attempt: the request fails with the
transition error and neither the update record nor the facility changes. -/
theorem terminal_update_transitions_rejected
    (valid : List (String × String) → Bool) (st : WorkflowState)
    (hterm : st.update.approved = true ∨ st.update.cancelled = true) :
    tryApprove valid st = (st, some terminalTransitionError) ∧
    tryCancel st = (st, some terminalTransitionError) := by
  have hcond : (st.update.approved || st.update.cancelled) = true := by
    rcases hterm with h | h <;> simp [h]
  constructor <;> simp [tryApprove, tryCancel, approveUpdate, cancelUpdate, hcond]

/-- Witness for `terminal_update_transitions_rejected` at a concrete
approved (terminal) update. -/
theorem terminal_update_transitions_rejected_witness :
    tryApprove (fun _ => true)
      ⟨⟨7, [("name", "old")], false, none⟩,
       ⟨3, 7, [⟨"name", "name", "old", "X"⟩], true, false⟩⟩ =
      (⟨⟨7, [("name", "old")], false, none⟩,
        ⟨3, 7, [⟨"name", "name", "old", "X"⟩], true, false⟩⟩,
       some terminalTransitionError) ∧
    tryCancel
      ⟨⟨7, [("name", "old")], false, none⟩,
       ⟨3, 7, [⟨"name", "name", "old", "X"⟩], true, false⟩⟩ =
      (⟨⟨7, [("name", "old")], false, none⟩,
        ⟨3, 7, [⟨"name", "name", "old", "X"⟩], true, false⟩⟩,
       some terminalTransitionError) :=
  terminal_update_transitions_rejected (fun _ => true)
    ⟨⟨7, [("name", "old")], false, none⟩,
     ⟨3, 7, [⟨"name", "name", "old", "X"⟩], true, false⟩⟩
    (Or.inl rfl)

/-! ## Theorems about the scoped visibility filter -/

/-- Claim C5: a user scoped to county `c` sees zero facilities whose ward's
county is not `c`; a user scoped to constituency `s` sees zero facilities
whose ward's constituency is not `s`; a national user sees all facilities;
and a user with no active scope assignment and no national flag sees an
empty result set rather than an error. -/
theorem scoped_visibility_filter
    (db : RegionDB) (u : ScopedUser) (facs : List FacilityGeo) :
    (∀ c, u.is_national = false → u.active_county = some c →
      ∀ f ∈ visibleTo db u facs, wardCounty db f.ward = some c) ∧
    (∀ s, u.is_national = false → u.active_county = none →
      u.active_constituency = some s →
      ∀ f ∈ visibleTo db u facs, wardConstituency db f.ward = some s) ∧
    (u.is_national = true → visibleTo db u facs = facs) ∧
    (u.is_national = false → u.active_county = none →
      u.active_constituency = none → visibleTo db u facs = []) := by
  refine ⟨?_, ?_, ?_, ?_⟩
  · intro c hn hc f hf
    simp [visibleTo, userScope, scopeFilter, hn, hc, List.mem_filter] at hf
    exact hf.2
  · intro s hn hc hs f hf
    simp [visibleTo, userScope, scopeFilter, hn, hc, hs, List.mem_filter] at hf
    exact hf.2
  · intro hn
    simp [visibleTo, userScope, scopeFilter, hn]
  · intro hn hc hs
    simp [visibleTo, userScope, scopeFilter, hn, hc, hs]

/-- Witness for `scoped_visibility_filter`: a user with no active scope and
no national flag sees an empty result set over a concrete non-empty facility
table. -/
theorem scoped_visibility_filter_witness :
    visibleTo ⟨[⟨2, 11⟩], [⟨11, 30⟩]⟩ ⟨false, none, none⟩ [⟨1, 2⟩] = [] :=
  (scoped_visibility_filter ⟨[⟨2, 11⟩], [⟨11, 30⟩]⟩ ⟨false, none, none⟩
    [⟨1, 2⟩]).2.2.2 rfl rfl rfl

/-! ## Theorems about `UserCounties` -/

theorem ucPreserve_pk (store : UCStore) (self : UserCountyRow) :
    (ucPreserve store self).pk = self.pk := by
  unfold ucPreserve
  cases h : ucObjectsGet store self.pk <;> simp

theorem ucPreserve_user (store : UCStore) (self : UserCountyRow) :
    (ucPreserve store self).user = self.user := by
  unfold ucPreserve
  cases h : ucObjectsGet store self.pk <;> simp

theorem activeCountyRowsFor_pos (store : UCStore) (u : Nat) (r : UserCountyRow)
    (hr : r ∈ store) (hu : r.user = u) (ha : r.is_active = true) (hd : r.deleted = false) :
    0 < (activeCountyRowsFor store u).length := by
  have hmem : r ∈ activeCountyRowsFor store u := by
    unfold activeCountyRowsFor
    exact List.mem_filter.mpr ⟨hr, by simp [hu, ha, hd]⟩
  exact List.length_pos.mpr (List.ne_nil_of_mem hmem)

theorem activeCountyRowsFor_append (s1 s2 : UCStore) (u : Nat) :
    activeCountyRowsFor (s1 ++ s2) u =
      activeCountyRowsFor s1 u ++ activeCountyRowsFor s2 u := by
  unfold activeCountyRowsFor
  simp [List.filter_append]

theorem activeCountyRowsFor_singleton_le (r : UserCountyRow) (u : Nat) :
    (activeCountyRowsFor [r] u).length ≤ 1 :=
  le_trans (List.length_filter_le _ _) (by simp)

theorem activeCountyRowsFor_singleton_ne (r : UserCountyRow) (u : Nat)
    (h : r.user ≠ u) : activeCountyRowsFor [r] u = [] := by
  simp [activeCountyRowsFor, h]

theorem validateOnlyOneCountyActive_ok (store : UCStore) (self : UserCountyRow)
    (h : validateOnlyOneCountyActive store self = Except.ok ()) :
    (activeCountyRowsFor store self.user).length = 0 := by
  unfold validateOnlyOneCountyActive at h
  split at h
  · exact absurd h (by simp)
  · omega

theorem ucSave_fresh_preserves_invariant
    (store : UCStore) (self : UserCountyRow) (store2 : UCStore)
    (hfresh : ∀ r ∈ store, r.pk ≠ self.pk)
    (hok : userCountiesSave store self = Except.ok store2)
    (hinv : atMostOneActivePerUser store) :
    atMostOneActivePerUser store2 := by
  unfold userCountiesSave at hok
  cases hv : validateOnlyOneCountyActive store self with
  | error e => rw [hv] at hok; exact absurd hok (by simp)
  | ok v =>
    rw [hv] at hok
    simp only at hok
    split at hok
    · exact absurd hok (by simp)
    · have hw : ucWriteRow store (ucPreserve store self) = store2 := by
        exact Except.ok.inj hok
      have hany : store.any (fun r => r.pk = (ucPreserve store self).pk) = false := by
        rw [List.any_eq_false]
        intro r hr
        simp [ucPreserve_pk, hfresh r hr]
      rw [ucWriteRow, hany] at hw
      simp only [Bool.false_eq_true, if_neg, not_false_iff] at hw
      have hcount := validateOnlyOneCountyActive_ok store self hv
      intro u
      rw [← hw, activeCountyRowsFor_append, List.length_append]
      by_cases hu : u = self.user
      · subst hu
        rw [hcount]
        have hone := activeCountyRowsFor_singleton_le (ucPreserve store self) self.user
        omega
      · have hne : (ucPreserve store self).user ≠ u := by
          rw [ucPreserve_user]
          exact fun hh => hu hh.symm
        rw [activeCountyRowsFor_singleton_ne _ _ hne]
        have hle := hinv u
        simp only [List.length_nil]
        omega

/-- Claim C7: for a user who already has an active (non-deleted)
`UserCounties` record, creating a second active record for that user raises
the validation error and persists nothing; and a successful save of a fresh
record always preserves the at-most-one-active-county-per-user invariant. -/
theorem second_active_user_county_rejected
    (store : UCStore) (self : UserCountyRow)
    (hactive : ∃ r ∈ store, r.user = self.user ∧ r.is_active = true ∧ r.deleted = false)
    (_hself : self.is_active = true) :
    userCountiesSave store self = Except.error oneCountyError ∧
    (∀ store2, userCountiesSave store self ≠ Except.ok store2) ∧
    (∀ self2 store2, (∀ r ∈ store, r.pk ≠ self2.pk) →
      userCountiesSave store self2 = Except.ok store2 →
      atMostOneActivePerUser store → atMostOneActivePerUser store2) := by
  have hlen : 0 < (activeCountyRowsFor store self.user).length := by
    obtain ⟨r, hr, hu, ha, hd⟩ := hactive
    exact activeCountyRowsFor_pos store self.user r hr hu ha hd
  have herr : userCountiesSave store self = Except.error oneCountyError := by
    unfold userCountiesSave validateOnlyOneCountyActive
    simp [hlen]
  refine ⟨herr, ?_, ?_⟩
  · intro store2 hok
    rw [herr] at hok
    exact absurd hok (by simp)
  · intro self2 store2 hfresh hok hinv
    exact ucSave_fresh_preserves_invariant store self2 store2 hfresh hok hinv

/-- Witness for `second_active_user_county_rejected`: user 9 already has an
active county record; saving a second active record for user 9 errors, and
a fresh save over the empty table keeps the invariant. -/
theorem second_active_user_county_rejected_witness :
    userCountiesSave [⟨1, 9, 4, true, 0, 0, 1, 1, false, true⟩]
      ⟨2, 9, 5, true, 0, 0, 1, 1, false, true⟩ = Except.error oneCountyError :=
  (second_active_user_county_rejected
    [⟨1, 9, 4, true, 0, 0, 1, 1, false, true⟩]
    ⟨2, 9, 5, true, 0, 0, 1, 1, false, true⟩
    ⟨⟨1, 9, 4, true, 0, 0, 1, 1, false, true⟩, by simp, rfl, rfl, rfl⟩ rfl).1

/-- Claim C9: once a user has a persisted active (non-deleted)
`UserCounties` row, `save` of any further record for that user raises —
even a record with `is_active = false`, and even a re-save of the active
row itself — because `validate_only_one_county_active` counts every active
row of the user without excluding the row being saved and without looking
at the new record's own `is_active` value. -/
theorem user_with_active_county_cannot_save_any_row
    (store : UCStore) (u : Nat)
    (hactive : ∃ r ∈ store, r.user = u ∧ r.is_active = true ∧ r.deleted = false) :
    ∀ self : UserCountyRow, self.user = u →
      userCountiesSave store self = Except.error oneCountyError := by
  intro self hu
  have hlen : 0 < (activeCountyRowsFor store self.user).length := by
    obtain ⟨r, hr, hru, ha, hd⟩ := hactive
    exact activeCountyRowsFor_pos store self.user r hr (by rw [hru, hu]) ha hd
  unfold userCountiesSave validateOnlyOneCountyActive
  simp [hlen]

/-- Witness for `user_with_active_county_cannot_save_any_row`: with user 9
holding an active row, saving an inactive second row errors, and re-saving
the active row itself errors. -/
theorem user_with_active_county_cannot_save_any_row_witness :
    userCountiesSave [⟨1, 9, 4, true, 0, 0, 1, 1, false, true⟩]
      ⟨2, 9, 5, false, 0, 0, 1, 1, false, true⟩ = Except.error oneCountyError ∧
    userCountiesSave [⟨1, 9, 4, true, 0, 0, 1, 1, false, true⟩]
      ⟨1, 9, 4, true, 0, 0, 1, 1, false, true⟩ = Except.error oneCountyError :=
  ⟨user_with_active_county_cannot_save_any_row
      [⟨1, 9, 4, true, 0, 0, 1, 1, false, true⟩] 9
      ⟨⟨1, 9, 4, true, 0, 0, 1, 1, false, true⟩, by simp, rfl, rfl, rfl⟩
      ⟨2, 9, 5, false, 0, 0, 1, 1, false, true⟩ rfl,
   user_with_active_county_cannot_save_any_row
      [⟨1, 9, 4, true, 0, 0, 1, 1, false, true⟩] 9
      ⟨⟨1, 9, 4, true, 0, 0, 1, 1, false, true⟩, by simp, rfl, rfl, rfl⟩
      ⟨1, 9, 4, true, 0, 0, 1, 1, false, true⟩ rfl⟩

/-! ## Theorems about the audit base -/

/-- Claim C8: every row a successful `save` writes satisfies
`created ≤ updated` (rows it does not touch are left as they were), and a
write whose effective values would have `updated < created` is rejected
with the validation error, persisting nothing. -/
theorem updated_ge_created_enforced (store : Store) (self : DBRecord) :
    (∀ store2, abstractSave store self = Except.ok store2 →
      ∀ r ∈ store2, r ∈ store ∨ r.created ≤ r.updated) ∧
    ((preserveCreatedAndCreatedBy store self).updated <
        (preserveCreatedAndCreatedBy store self).created →
      abstractSave store self = Except.error updatedDateError) := by
  constructor
  · intro store2 hok r hr
    by_cases hlt : (preserveCreatedAndCreatedBy store self).updated <
        (preserveCreatedAndCreatedBy store self).created
    · have herr : abstractSave store self = Except.error updatedDateError := by
        unfold abstractSave validateUpdatedDateGreaterThanCreated
        simp [hlt]
      rw [herr] at hok
      exact absurd hok (by simp)
    · have hok2 : store2 = writeRow store (preserveCreatedAndCreatedBy store self) := by
        unfold abstractSave validateUpdatedDateGreaterThanCreated at hok
        simp [hlt] at hok
        exact hok.symm
      have hcu : (preserveCreatedAndCreatedBy store self).created ≤
          (preserveCreatedAndCreatedBy store self).updated := Nat.le_of_not_lt hlt
      rw [hok2] at hr
      unfold writeRow at hr
      split at hr
      · obtain ⟨r0, hr0, hfr⟩ := List.mem_map.mp hr
        by_cases hpk : r0.pk = (preserveCreatedAndCreatedBy store self).pk
        · right
          rw [← hfr]
          simp only [hpk, if_pos]
          exact hcu
        · left
          rw [← hfr]
          simp only [hpk, if_neg, not_false_iff]
          exact hr0
      · rcases List.mem_append.mp hr with h | h
        · exact Or.inl h
        · right
          have hrs : r = preserveCreatedAndCreatedBy store self := by simpa using h
          rw [hrs]
          exact hcu
  · intro hlt
    unfold abstractSave validateUpdatedDateGreaterThanCreated
    simp [hlt]

/-- Witness for `updated_ge_created_enforced`: a fresh record whose
`updated` (3) is behind its `created` (5) is rejected. -/
theorem updated_ge_created_enforced_witness :
    abstractSave [] ⟨1, 5, 3, 1, 1, false, true, "p"⟩ =
      Except.error updatedDateError :=
  (updated_ge_created_enforced [] ⟨1, 5, 3, 1, 1, false, true, "p"⟩).2 (by decide)

/-- Claim C10 as stated is false: `preserve_created_and_created_by` looks
the stored row up through the default manager, which filters out
soft-deleted rows.  Here the record with pk 1 is already persisted (with
`deleted = true`), yet saving it with `created` changed from 5 to 9
persists the new `created`. -/
theorem preserve_created_counterexample :
    abstractSave [⟨1, 5, 5, 1, 1, true, true, "p"⟩] ⟨1, 9, 9, 2, 2, true, true, "p"⟩ =
      Except.ok [⟨1, 9, 9, 2, 2, true, true, "p"⟩] ∧ (9 : Nat) ≠ 5 :=
  ⟨rfl, by decide⟩

/-- Claim C10, amended: for every already-persisted record whose stored row
the default manager finds (i.e. the stored row is not soft-deleted),
`save` writes the row with `created` and `created_by` restored from the
stored row, while `updated`, `updated_by`, `deleted`, `active` and the
subclass payload are taken from the instance being saved. -/
theorem preserve_created_amended
    (store : Store) (self original : DBRecord) (store2 : Store)
    (hfound : objectsGet store self.pk = some original)
    (hok : abstractSave store self = Except.ok store2) :
    store2 = writeRow store
      { self with created := original.created, created_by := original.created_by } ∧
    (preserveCreatedAndCreatedBy store self).created = original.created ∧
    (preserveCreatedAndCreatedBy store self).created_by = original.created_by ∧
    (preserveCreatedAndCreatedBy store self).updated = self.updated ∧
    (preserveCreatedAndCreatedBy store self).updated_by = self.updated_by ∧
    (preserveCreatedAndCreatedBy store self).deleted = self.deleted ∧
    (preserveCreatedAndCreatedBy store self).active = self.active ∧
    (preserveCreatedAndCreatedBy store self).payload = self.payload := by
  have hpres : preserveCreatedAndCreatedBy store self =
      { self with created := original.created, created_by := original.created_by } := by
    unfold preserveCreatedAndCreatedBy
    rw [hfound]
  by_cases hlt : (preserveCreatedAndCreatedBy store self).updated <
      (preserveCreatedAndCreatedBy store self).created
  · exfalso
    have herr : abstractSave store self = Except.error updatedDateError := by
      unfold abstractSave validateUpdatedDateGreaterThanCreated
      simp [hlt]
    rw [herr] at hok
    exact absurd hok (by simp)
  · have hok2 : store2 = writeRow store (preserveCreatedAndCreatedBy store self) := by
      unfold abstractSave validateUpdatedDateGreaterThanCreated at hok
      simp [hlt] at hok
      exact hok.symm
    rw [hok2, hpres]
    simp [hpres]

/-- Witness for `preserve_created_amended` at a concrete non-deleted stored
row: a save that tries to move `created` from 5 to 9 keeps 5 in the
written row. -/
theorem preserve_created_amended_witness :
    [⟨1, 5, 9, 1, 2, false, true, "q"⟩] = writeRow [⟨1, 5, 5, 1, 1, false, true, "p"⟩]
      { (⟨1, 9, 9, 2, 2, false, true, "q"⟩ : DBRecord) with
        created := 5, created_by := 1 } ∧
    (preserveCreatedAndCreatedBy [⟨1, 5, 5, 1, 1, false, true, "p"⟩]
      ⟨1, 9, 9, 2, 2, false, true, "q"⟩).created = 5 ∧
    (preserveCreatedAndCreatedBy [⟨1, 5, 5, 1, 1, false, true, "p"⟩]
      ⟨1, 9, 9, 2, 2, false, true, "q"⟩).created_by = 1 ∧
    (preserveCreatedAndCreatedBy [⟨1, 5, 5, 1, 1, false, true, "p"⟩]
      ⟨1, 9, 9, 2, 2, false, true, "q"⟩).updated =
      (⟨1, 9, 9, 2, 2, false, true, "q"⟩ : DBRecord).updated ∧
    (preserveCreatedAndCreatedBy [⟨1, 5, 5, 1, 1, false, true, "p"⟩]
      ⟨1, 9, 9, 2, 2, false, true, "q"⟩).updated_by =
      (⟨1, 9, 9, 2, 2, false, true, "q"⟩ : DBRecord).updated_by ∧
    (preserveCreatedAndCreatedBy [⟨1, 5, 5, 1, 1, false, true, "p"⟩]
      ⟨1, 9, 9, 2, 2, false, true, "q"⟩).deleted =
      (⟨1, 9, 9, 2, 2, false, true, "q"⟩ : DBRecord).deleted ∧
    (preserveCreatedAndCreatedBy [⟨1, 5, 5, 1, 1, false, true, "p"⟩]
      ⟨1, 9, 9, 2, 2, false, true, "q"⟩).active =
      (⟨1, 9, 9, 2, 2, false, true, "q"⟩ : DBRecord).active ∧
    (preserveCreatedAndCreatedBy [⟨1, 5, 5, 1, 1, false, true, "p"⟩]
      ⟨1, 9, 9, 2, 2, false, true, "q"⟩).payload =
      (⟨1, 9, 9, 2, 2, false, true, "q"⟩ : DBRecord).payload :=
  preserve_created_amended [⟨1, 5, 5, 1, 1, false, true, "p"⟩]
    ⟨1, 9, 9, 2, 2, false, true, "q"⟩ ⟨1, 5, 5, 1, 1, false, true, "p"⟩
    [⟨1, 5, 9, 1, 2, false, true, "q"⟩] rfl rfl

/-! ## Theorems about sequence codes -/

theorem regionSaveCode_counter_le (ctr : Nat) (req : Option Nat) :
    ctr ≤ (regionSaveCode ctr req).1 := by
  unfold regionSaveCode sequenceNext
  split <;> simp

theorem runCreates_counter_le (reqs : List (Option Nat)) :
    ∀ ctr : Nat, ctr ≤ (runCreates ctr reqs).2 := by
  induction reqs with
  | nil => intro ctr; simp [runCreates]
  | cons req rest ih =>
    intro ctr
    simp only [runCreates]
    exact le_trans (regionSaveCode_counter_le ctr req) (ih _)

theorem runCreates_gen_bounds (reqs : List (Option Nat)) :
    ∀ ctr : Nat, ∀ p ∈ (runCreates ctr reqs).1, p.2 = true →
      ctr < p.1 ∧ p.1 ≤ (runCreates ctr reqs).2 := by
  induction reqs with
  | nil => intro ctr p hp; simp [runCreates] at hp
  | cons req rest ih =>
    intro ctr p hp hgen
    simp only [runCreates, List.mem_cons] at hp
    rcases hp with hp | hp
    · subst hp
      simp only at hgen
      have hr : regionSaveCode ctr req = (ctr + 1, ctr + 1) := by
        simp [regionSaveCode, sequenceNext, hgen]
      simp only [runCreates, hr]
      constructor
      · omega
      · exact runCreates_counter_le rest (ctr + 1)
    · have hb := ih (regionSaveCode ctr req).1 p hp hgen
      refine ⟨lt_of_le_of_lt (regionSaveCode_counter_le ctr req) hb.1, ?_⟩
      simp only [runCreates]
      exact hb.2

theorem runCreates_pairwise (reqs : List (Option Nat)) :
    ∀ ctr : Nat,
      List.Pairwise (fun p q : Nat × Bool => p.2 = true → q.2 = true → p.1 < q.1)
        (runCreates ctr reqs).1 := by
  induction reqs with
  | nil => intro ctr; simp [runCreates]
  | cons req rest ih =>
    intro ctr
    simp only [runCreates]
    refine List.Pairwise.cons ?_ (ih _)
    intro q hq hhead hgen
    simp only at hhead
    have hr : regionSaveCode ctr req = (ctr + 1, ctr + 1) := by
      simp [regionSaveCode, sequenceNext, hhead]
    have hb := (runCreates_gen_bounds rest (regionSaveCode ctr req).1 q hq hgen).1
    rw [hr] at hb ⊢
    simpa using hb

theorem runCreates_explicit_kept (reqs : List (Option Nat)) :
    ∀ ctr : Nat,
      List.Forall₂ (fun req (p : Nat × Bool) => ∀ k, req = some k → k ≠ 0 → p = (k, false))
        reqs (runCreates ctr reqs).1 := by
  induction reqs with
  | nil => intro ctr; exact List.Forall₂.nil
  | cons req rest ih =>
    intro ctr
    simp only [runCreates]
    refine List.Forall₂.cons ?_ (ih _)
    intro k hk hk0
    subst hk
    have hf : pyFalsyCode (some k) = false := by
      cases k with
      | zero => exact absurd rfl hk0
      | succ m => rfl
    simp [regionSaveCode, hf]

/-- Claim C6 as stated is false at an explicit code of zero: the save guard
`if not self.code` treats the number `0` as absent, so a record created
with the explicit code `0` does not keep it — the sequence issues a fresh
code (here 101, with the counter at 100). -/
theorem explicit_zero_code_not_kept :
    regionSaveCode 100 (some 0) = (101, 101) ∧ (regionSaveCode 100 (some 0)).2 ≠ 0 :=
  ⟨rfl, by decide⟩

/-- Claim C6, amended: along any run of record creations, every code the
save path generates is strictly greater than every code it generated
earlier in the run, and a record created with an explicit nonzero code
keeps that code without consuming the sequence; an explicit code of zero
is falsy under the guard `if not self.code` and is replaced by a generated
code. -/
theorem sequence_codes_strictly_increase (ctr : Nat) (reqs : List (Option Nat)) :
    List.Pairwise (fun p q : Nat × Bool => p.2 = true → q.2 = true → p.1 < q.1)
      (runCreates ctr reqs).1 ∧
    List.Forall₂ (fun req (p : Nat × Bool) => ∀ k, req = some k → k ≠ 0 → p = (k, false))
      reqs (runCreates ctr reqs).1 :=
  ⟨runCreates_pairwise reqs ctr, runCreates_explicit_kept reqs ctr⟩

/-- Witness for `sequence_codes_strictly_increase` on a concrete run: two
generated codes around an explicit one stay strictly increasing. -/
theorem sequence_codes_strictly_increase_witness :
    List.Pairwise (fun p q : Nat × Bool => p.2 = true → q.2 = true → p.1 < q.1)
      (runCreates 100 [none, some 500, none]).1 :=
  (sequence_codes_strictly_increase 100 [none, some 500, none]).1

end MflApi
